import Mathlib

/-!
Verification of the peer-evaluation frontend (rating.js, team.js, signup.js,
protected.js) of the bs-sef-2025-team18 repository, against its
natural-language specification.

The JavaScript is DOM glue around pure decision logic.  We embed that logic
shallowly: DOM form state becomes an explicit `FormState` record, the
`localStorage` review store becomes an association list, `fetch` calls become
`Request` values collected in traces, and response dispatch becomes a total
function on the HTTP status code.  JavaScript truthiness quirks that the code
relies on are embedded explicitly: `x || d` on numbers treats `0` as missing
(`jsOrInt`), `x || d` on strings treats the empty string as missing
(`jsOrString`), and `.toLowerCase()` is embedded as a character map
(`jsToLower`).
-/

/-- `x || d` for a possibly-missing JavaScript number: `undefined`, `null`
and `0` are falsy and fall back to the default. Mirrors
`criterion.scale?.min || 1` in rating.js. -/
def jsOrInt (x : Option Int) (d : Int) : Int :=
  match x with
  | none => d
  | some v => if v = 0 then d else v

/-- `x || d` for a possibly-missing JavaScript string: `undefined`, `null`
and `""` are falsy and fall back to the default. Mirrors `m.username || ""`. -/
def jsOrString (x : Option String) (d : String) : String :=
  match x with
  | none => d
  | some s => if s = "" then d else s

/-- Embedding of JavaScript `String.prototype.toLowerCase` as a per-character
map over the string contents. -/
def jsToLower (s : String) : String :=
  ⟨s.data.map Char.toLower⟩

/-- A rating scale as delivered by the backend: either bound may be absent
in the JSON object. Mirrors `criterion.scale` in rating.js. -/
structure Scale where
  min : Option Int
  max : Option Int
deriving Repr, DecidableEq

/-- An evaluation criterion as used by rating.js: `scale` itself may be
absent (`criterion.scale?.min`). -/
structure Criterion where
  id : Nat
  title : String
  description : Option String
  required : Bool
  scale : Option Scale
deriving Repr, DecidableEq

/-- Effective lower bound used by rating.js: `criterion.scale?.min || 1`. -/
def scaleMinOf (c : Criterion) : Int :=
  jsOrInt (c.scale.bind Scale.min) 1

/-- Effective upper bound used by rating.js: `criterion.scale?.max || 5`. -/
def scaleMaxOf (c : Criterion) : Int :=
  jsOrInt (c.scale.bind Scale.max) 5

/-- Abstraction of the DOM state the rating form reads:
`revieweeId` is the value of `#teammateSelect` (`none` for the empty
placeholder option), `checked i` is the numeric value of the checked radio
input named `rating-i` if any, and `comment` is the `#commentBox` value. -/
structure FormState where
  revieweeId : Option Nat
  checked : Nat → Option Int
  comment : String

/-- A validation error pushed by `validatePeerReviewInput` in rating.js.
The DOM `element` field and the derived `message` string of the JS error
objects are not part of the decision logic; `message` is recovered by
`VError.message` below. -/
inductive VError where
  | teammate
  | missing_rating (criterion_id : Nat) (criterion_title : String)
  | out_of_range (criterion_id : Nat) (criterion_title : String)
      (scaleMin scaleMax : Int)
deriving Repr, DecidableEq

/-- The `message` string rating.js stores on each validation error. -/
def VError.message : VError → String
  | .teammate => "Please select a teammate to review."
  | .missing_rating _ t => "Rating is required for \"" ++ t ++ "\""
  | .out_of_range _ t lo hi =>
      "Rating for \"" ++ t ++ "\" must be between " ++ toString lo ++
        " and " ++ toString hi

/-- Whether an error is the `out_of_range` kind. -/
def VError.isOutOfRange : VError → Bool
  | .out_of_range _ _ _ _ => true
  | _ => false

/-- The per-criterion body of the `for (const criterion of criteria)` loop in
`validatePeerReviewInput` (rating.js): a required criterion without a checked
rating yields a `missing_rating` error; a checked rating outside the effective
scale bounds yields an `out_of_range` error. -/
def validateCriterion (fs : FormState) (c : Criterion) : List VError :=
  match fs.checked c.id with
  | none => if c.required then [VError.missing_rating c.id c.title] else []
  | some rating =>
      if rating < scaleMinOf c ∨ rating > scaleMaxOf c then
        [VError.out_of_range c.id c.title (scaleMinOf c) (scaleMaxOf c)]
      else []

/-- Result object of `validatePeerReviewInput`: `isValid` is
`errors.length === 0`. -/
structure ValidationResult where
  isValid : Bool
  errors : List VError
deriving Repr, DecidableEq

/-- `validatePeerReviewInput` (rating.js): pushes a `teammate` error when no
teammate is selected, then the per-criterion errors in criteria order. -/
def validatePeerReviewInput (criteria : List Criterion) (fs : FormState) :
    ValidationResult :=
  let errors :=
    (if fs.revieweeId.isNone then [VError.teammate] else []) ++
      criteria.flatMap (validateCriterion fs)
  { isValid := errors.isEmpty, errors := errors }

/-- The numeric values of the radio inputs `renderRatingInputs` (rating.js)
creates for one criterion: the loop
`for (let val = scaleMin; val <= scaleMax; val++)` with the same
`|| 1` and `|| 5` defaults as validation. -/
def renderedValues (c : Criterion) : List Int :=
  (List.range (scaleMaxOf c + 1 - scaleMinOf c).toNat).map
    (fun i : Nat => scaleMinOf c + (i : Int))

/-- One answer entry of the submit payload: an object pairing `criterion_id`
with the numeric `rating`. -/
structure AnswerOut where
  criterion_id : Nat
  rating : Int
deriving Repr, DecidableEq

/-- The review record rating.js stores in `submittedReviews` after a
successful submission. -/
structure ReviewData where
  teammate_id : Int
  answers : List AnswerOut
  comment : String
  submitted_at : String
deriving Repr, DecidableEq

/-- The `submittedReviews` object of rating.js for the logged-in reviewer
(the `localStorage` key is derived from the stored username, so each reviewer
has their own store), as an association list keyed by teammate id. -/
abbrev SubmittedStore := List (Nat × ReviewData)

/-- `storeSubmittedReview` (rating.js):
`submittedReviews[teammateId] = reviewData; saveSubmittedReviews();` —
JavaScript object assignment replaces the value under an existing key and
otherwise adds the key. -/
def storeSubmittedReview (s : SubmittedStore) (teammateId : Nat)
    (reviewData : ReviewData) : SubmittedStore :=
  if s.any (fun p => p.1 = teammateId) then
    s.map (fun p => if p.1 = teammateId then (teammateId, reviewData) else p)
  else
    s ++ [(teammateId, reviewData)]

/-- `getSubmittedReview` (rating.js): `submittedReviews[teammateId] || null`. -/
def getSubmittedReview (s : SubmittedStore) (teammateId : Nat) :
    Option ReviewData :=
  (s.find? (fun p => p.1 = teammateId)).map Prod.snd

/-- An HTTP request as issued by the frontend `fetch` calls: method, URL path
relative to `BACKEND_URL`, and the `Authorization` header if one is set. -/
structure Request where
  method : String
  url : String
  authorization : Option String
deriving Repr, DecidableEq

/-- The `Authorization` header value the frontend builds:
`` `Bearer ${token}` ``. -/
def bearer (t : String) : String := "Bearer " ++ t

/-- One review object of the submit payload. -/
structure ReviewOut where
  teammate_id : Int
  answers : List AnswerOut
deriving Repr, DecidableEq

/-- The body `handleSubmit` (rating.js) sends to `POST /peer-reviews/submit`:
an object with a single field `reviews`. -/
structure SubmitPayload where
  reviews : List ReviewOut
deriving Repr, DecidableEq

/-- The answer-collection loop of `handleSubmit` (rating.js): for each
criterion, if a rating input named after it is checked, push an entry pairing
the criterion id with the numeric checked value. -/
def collectAnswers (criteria : List Criterion) (fs : FormState) :
    List AnswerOut :=
  criteria.filterMap
    (fun c => (fs.checked c.id).map (fun r => AnswerOut.mk c.id r))

/-- The payload `handleSubmit` builds:
a `reviews` array with one entry whose `teammate_id` is
`Number(revieweeId)` and whose `answers` are the collected answers.
(When the post is reached, validation has passed, so `revieweeId` is set;
the `getD 0` default is never used on that path.) -/
def buildPayload (criteria : List Criterion) (fs : FormState) : SubmitPayload :=
  { reviews :=
      [ { teammate_id := ((fs.revieweeId.getD 0 : Nat) : Int),
          answers := collectAnswers criteria fs } ] }

/-- The decision `handleSubmit` (rating.js) takes before any network call:
with no stored token it reports "You are not logged in." and redirects to
login.html; with an invalid form it displays the validation errors and
returns; otherwise it POSTs the payload. -/
inductive SubmitStep where
  | notLoggedIn
  | validationFailed (errors : List VError)
  | posted (payload : SubmitPayload)
deriving Repr, DecidableEq

/-- The pre-network control flow of `handleSubmit` (rating.js lines 952-1009). -/
def handleSubmitStep (token : Option String) (criteria : List Criterion)
    (fs : FormState) : SubmitStep :=
  match token with
  | none => .notLoggedIn
  | some _ =>
      let v := validatePeerReviewInput criteria fs
      if v.isValid then .posted (buildPayload criteria fs)
      else .validationFailed v.errors

/-- The requests `handleSubmit` issues: exactly one POST to
`/peer-reviews/submit` with the bearer header, and only on the `posted`
path. -/
def handleSubmitRequests (token : Option String) (criteria : List Criterion)
    (fs : FormState) : List Request :=
  match handleSubmitStep token criteria fs with
  | .posted _ =>
      [{ method := "POST", url := "/peer-reviews/submit",
         authorization := token.map bearer }]
  | _ => []

/-- JavaScript `Response.ok`: status in the range 200-299. -/
def respOk (status : Nat) : Bool := decide (200 ≤ status ∧ status < 300)

/-- The distinct outcome paths of the response dispatch in `handleSubmit`
(rating.js lines 1035-1106). -/
inductive SubmitOutcome where
  | success
  | unauthorizedRedirect
  | conflictMessage (text : String)
  | validationMessage (text : String)
  | failureMessage (text : String)
deriving Repr, DecidableEq

/-- Response dispatch of `handleSubmit`: `res.ok` is success; 401 shows
"Unauthorized. Please login again." and redirects to login; 409 shows the
conflict message; 400 and 422 show the validation message; anything else the
generic failure message. `detail` is `extractDetail(data)` when non-null. -/
def classifySubmitResponse (status : Nat) (detail : Option String) :
    SubmitOutcome :=
  if respOk status then .success
  else if status = 401 then .unauthorizedRedirect
  else if status = 409 then
    .conflictMessage
      (detail.getD "Conflict: This review may have already been submitted.")
  else if status = 400 ∨ status = 422 then
    .validationMessage (detail.getD "Validation error: Please check your input.")
  else
    .failureMessage (detail.getD ("Submit failed (HTTP " ++ toString status ++ ")."))

/-- The effect of one `handleSubmit` run on the stored submitted reviews:
only on the `posted` path with an ok response and a selected reviewee does it
call `storeSubmittedReview` with the collected answers, the comment box value
and the current timestamp; every other path leaves the store unchanged. -/
def handleSubmitStore (token : Option String) (criteria : List Criterion)
    (fs : FormState) (store : SubmittedStore) (status : Nat) (now : String) :
    SubmittedStore :=
  match handleSubmitStep token criteria fs with
  | .posted _ =>
      if respOk status then
        match fs.revieweeId with
        | some rid =>
            storeSubmittedReview store rid
              { teammate_id := (rid : Int),
                answers := collectAnswers criteria fs,
                comment := fs.comment,
                submitted_at := now }
        | none => store
      else store
  | _ => store

/-- The request the DOMContentLoaded handler of rating.js issues to load the
criteria: nothing without a stored token (`if (!token) return;`), otherwise
one GET of `/peer-reviews/form` with the bearer header. -/
def ratingFormLoadRequests (token : Option String) : List Request :=
  match token with
  | none => []
  | some t =>
      [{ method := "GET", url := "/peer-reviews/form",
         authorization := some (bearer t) }]

/-- The request `refreshRatingForm` (rating.js) issues: same guard and same
GET as the initial form load. -/
def refreshRatingFormRequests (token : Option String) : List Request :=
  match token with
  | none => []
  | some t =>
      [{ method := "GET", url := "/peer-reviews/form",
         authorization := some (bearer t) }]

/-- The request `loadReviewIntoForm` (rating.js) issues: nothing without a
token (it reports "Not authenticated. Please log in." and returns), otherwise
one GET of `/peer-reviews/submitted/<teammateId>`; every later branch only
touches the DOM or `localStorage`. -/
def loadReviewIntoFormRequests (token : Option String) (teammateId : Nat) :
    List Request :=
  match token with
  | none => []
  | some t =>
      [{ method := "GET", url := "/peer-reviews/submitted/" ++ toString teammateId,
         authorization := some (bearer t) }]

/-- The requests `handleTeammateChange` (rating.js) issues. With a newly
selected teammate and a token it GETs `/peer-reviews/submitted/<id>`; then,
depending on the response (`resOk`, whether it reports submitted answers
`hasAnswers`) or on a `localStorage` fallback hit (`localHas`), it may call
`loadReviewIntoForm`, which issues its own request. Without a token only
`localStorage` is consulted and `loadReviewIntoForm` issues nothing. -/
def handleTeammateChangeRequests (token : Option String) (newId : Option Nat)
    (resOk hasAnswers localHas : Bool) : List Request :=
  match newId with
  | none => []
  | some tid =>
      match token with
      | none => []
      | some t =>
          { method := "GET",
            url := "/peer-reviews/submitted/" ++ toString tid,
            authorization := some (bearer t) } ::
            (if resOk then
              (if hasAnswers then loadReviewIntoFormRequests token tid
               else if localHas then loadReviewIntoFormRequests token tid
               else [])
             else if localHas then loadReviewIntoFormRequests token tid
             else [])

/-- Page protection in protected.js (DOMContentLoaded): on any page other
than login/signup, a missing token triggers `redirectToLogin()`. -/
def pageProtectionRedirects (isPublic : Bool) (token : Option String) : Bool :=
  !isPublic && token.isNone

/-- Member objects returned by the team endpoint; `username`, `name` and
`email` may be absent. -/
structure Member where
  id : Nat
  username : Option String
  name : Option String
  email : Option String
deriving Repr, DecidableEq

/-- The `filtered` list of the team-members page (src/unnamed/part_004):
`members.filter(...)` keeps a member when `(m.username || "").toLowerCase()`
is empty, and otherwise exactly when it differs from the stored username,
itself lowercased by the caller. -/
def filteredMembers (members : List Member) (currentUsername : String) :
    List Member :=
  members.filter fun m =>
    let u := jsToLower (jsOrString m.username "")
    if u = "" then true else u != currentUsername

/-- The signup form fields read by the submit handler of signup.js. -/
structure SignupForm where
  email : String
  username : String
  password : String
  confirmPassword : String
  role : String
deriving Repr, DecidableEq

/-- What the signup submit handler does before any network call: either it
only sets an error message, or it POSTs the signup body. -/
inductive SignupStep where
  | message (text : String)
  | post (email username password confirm_password role : String)
deriving Repr, DecidableEq

/-- The guard of the signup submit handler (signup.js lines 43-57): empty
fields (after trimming email and username) or a password mismatch set an
error message and return before `fetch`; otherwise the handler POSTs
the body with field `confirm_password` set to the confirm input. -/
def signupSubmitStep (f : SignupForm) : SignupStep :=
  let email := f.email.trim
  let username := f.username.trim
  if email = "" ∨ username = "" ∨ f.password = "" ∨ f.confirmPassword = "" ∨
      f.role = "" then
    .message "Please fill in all fields."
  else if f.password ≠ f.confirmPassword then
    .message "Passwords do not match."
  else
    .post email username f.password f.confirmPassword f.role

/-- The requests the signup submit handler issues: one unauthenticated POST
to `/auth/signup` on the `post` path, none otherwise. -/
def signupRequests (f : SignupForm) : List Request :=
  match signupSubmitStep f with
  | .message _ => []
  | .post _ _ _ _ _ =>
      [{ method := "POST", url := "/auth/signup", authorization := none }]

/-- Outcome paths of the signup response handling in signup.js. -/
inductive SignupOutcome where
  | success
  | conflictMessage (text : String)
  | failureMessage (text : String)
deriving Repr, DecidableEq

/-- Response dispatch of the signup handler (signup.js): 404 is reported
early as an endpoint-not-found failure; 201 or any ok status is success
(followed by the auto-login attempt); 409 shows the conflict message with
the "Username or email already exists." default; anything else the generic
failure message. -/
def classifySignupResponse (signupUrl : String) (status : Nat)
    (detail : Option String) : SignupOutcome :=
  if status = 404 then
    .failureMessage
      ("The endpoint " ++ signupUrl ++ " was not found. " ++
        "Please ensure the backend server is running. " ++
        "From the backend folder, run: python -m uvicorn main:app --reload --host 127.0.0.1 --port 8000")
  else if status = 201 ∨ respOk status then .success
  else if status = 409 then
    .conflictMessage (detail.getD "Username or email already exists.")
  else
    .failureMessage (detail.getD ("Signup failed (HTTP " ++ toString status ++ ")."))

/-- Modelled from the spec: the Review State Gate lives in the FastAPI
backend (`backend/main.py`), which is not among the provided sources; only
the spec describes `setState`. States are draft, started and published;
the initial state is draft. -/
inductive ReviewState where
  | draft
  | started
  | published
deriving Repr, DecidableEq

/-- Modelled from the spec: the initial gate state. -/
def initialReviewState : ReviewState := .draft

/-- Modelled from the spec: the allowed forward edges of the gate policy,
draft to started and started to published; backward transitions are
forbidden by default. -/
def allowedTransition : ReviewState → ReviewState → Bool
  | .draft, .started => true
  | .started, .published => true
  | _, _ => false

/-- Modelled from the spec: the error `setState` fails with when the
requested state is not reachable from the current state. -/
inductive GateError where
  | invalidTransition
deriving Repr, DecidableEq

/-- Modelled from the spec: `setState` succeeds exactly on the allowed
forward edges and otherwise fails with `InvalidTransition`. (The role check
for non-instructors is outside this claim.) -/
def setState (current requested : ReviewState) :
    Except GateError ReviewState :=
  if allowedTransition current requested then .ok requested
  else .error .invalidTransition

/-! ## Helper lemmas -/

theorem errors_validatePeerReviewInput (criteria : List Criterion)
    (fs : FormState) :
    (validatePeerReviewInput criteria fs).errors =
      (if fs.revieweeId.isNone then [VError.teammate] else []) ++
        criteria.flatMap (validateCriterion fs) := rfl

theorem isValid_validatePeerReviewInput (criteria : List Criterion)
    (fs : FormState) :
    (validatePeerReviewInput criteria fs).isValid =
      (validatePeerReviewInput criteria fs).errors.isEmpty := rfl

theorem isValid_false_of_mem_errors {criteria : List Criterion}
    {fs : FormState} {e : VError}
    (h : e ∈ (validatePeerReviewInput criteria fs).errors) :
    (validatePeerReviewInput criteria fs).isValid = false := by
  rw [isValid_validatePeerReviewInput]
  rcases hne : (validatePeerReviewInput criteria fs).errors with _ | ⟨a, l⟩
  · rw [hne] at h; cases h
  · rfl

theorem validateCriterion_missing {fs : FormState} {c : Criterion}
    (hreq : c.required = true) (hnone : fs.checked c.id = none) :
    validateCriterion fs c = [VError.missing_rating c.id c.title] := by
  simp [validateCriterion, hnone, hreq]

theorem validateCriterion_inRange {fs : FormState} {c : Criterion} {r : Int}
    (hr : fs.checked c.id = some r)
    (hlo : scaleMinOf c ≤ r) (hhi : r ≤ scaleMaxOf c) :
    validateCriterion fs c = [] := by
  simp only [validateCriterion, hr]
  rw [if_neg]
  omega

theorem validateCriterion_outOfRange {fs : FormState} {c : Criterion} {r : Int}
    (hr : fs.checked c.id = some r)
    (hout : r < scaleMinOf c ∨ r > scaleMaxOf c) :
    validateCriterion fs c =
      [VError.out_of_range c.id c.title (scaleMinOf c) (scaleMaxOf c)] := by
  simp only [validateCriterion, hr]
  rw [if_pos hout]

theorem mem_errors_of_mem_validateCriterion {criteria : List Criterion}
    {fs : FormState} {c : Criterion} {e : VError}
    (hc : c ∈ criteria) (he : e ∈ validateCriterion fs c) :
    e ∈ (validatePeerReviewInput criteria fs).errors := by
  rw [errors_validatePeerReviewInput]
  exact List.mem_append_right _ (List.mem_flatMap.mpr ⟨c, hc, he⟩)

theorem mem_renderedValues {c : Criterion} {v : Int} :
    v ∈ renderedValues c ↔ scaleMinOf c ≤ v ∧ v ≤ scaleMaxOf c := by
  simp only [renderedValues, List.mem_map, List.mem_range]
  constructor
  · rintro ⟨i, hi, rfl⟩
    omega
  · rintro ⟨h1, h2⟩
    exact ⟨(v - scaleMinOf c).toNat, by omega, by omega⟩

/-! ## Concrete inputs used by counterexamples and witnesses -/

/-- The "Teamwork" criterion of the spec scenario: required, scale 1-5. -/
def teamworkCriterion : Criterion :=
  { id := 1, title := "Teamwork",
    description := some "Works well with the team",
    required := true,
    scale := some { min := some 1, max := some 5 } }

/-- A form state with the Teamwork criterion answered with rating 5 but no
teammate selected. -/
def fsAnsweredNoTeammate : FormState :=
  { revieweeId := none,
    checked := fun i => if i = 1 then some 5 else none,
    comment := "" }

/-- A form state with teammate 7 selected and the Teamwork criterion
answered with rating 5. -/
def fsAnswered : FormState :=
  { revieweeId := some 7,
    checked := fun i => if i = 1 then some 5 else none,
    comment := "" }

/-- A form state with teammate 7 selected and the Teamwork criterion left
unanswered. -/
def fsUnanswered : FormState :=
  { revieweeId := some 7,
    checked := fun _ => none,
    comment := "" }

/-- A form state with teammate 7 selected and rating 6 checked for the
Teamwork criterion (scale max 5). -/
def fsRating6 : FormState :=
  { revieweeId := some 7,
    checked := fun i => if i = 1 then some 6 else none,
    comment := "" }

/-- A criterion whose scale has `min = 0`: the JavaScript `|| 1` default
treats the 0 bound as missing. -/
def zeroMinCriterion : Criterion :=
  { id := 2, title := "Quality", description := none, required := false,
    scale := some { min := some 0, max := some 5 } }

/-- A form state with teammate 7 selected and rating 0 checked for the
zero-min criterion. -/
def fsZeroRating : FormState :=
  { revieweeId := some 7,
    checked := fun i => if i = 2 then some 0 else none,
    comment := "" }

/-! ## C4: review state machine -/

/-- C4: the review state machine starts in draft; `setState` succeeds exactly
on the forward edges draft-to-started and started-to-published; every other
requested transition fails with `InvalidTransition`; published has no
outgoing transitions. -/
theorem c4_state_machine :
    initialReviewState = ReviewState.draft ∧
    (∀ s t : ReviewState, setState s t = Except.ok t ↔
      ((s = ReviewState.draft ∧ t = ReviewState.started) ∨
        (s = ReviewState.started ∧ t = ReviewState.published))) ∧
    (∀ s t : ReviewState, setState s t ≠ Except.ok t →
        setState s t = Except.error GateError.invalidTransition) ∧
    (∀ t : ReviewState, setState ReviewState.published t =
        Except.error GateError.invalidTransition) := by
  refine ⟨rfl, ?_, ?_, ?_⟩
  · intro s t
    cases s <;> cases t <;> simp [setState, allowedTransition]
  · intro s t h
    cases s <;> cases t <;> simp_all [setState, allowedTransition]
  · intro t
    cases t <;> rfl

/-! ## C1: required criteria -/

/-- C1 counterexample: with the criteria list holding only the required
Teamwork criterion, answered with rating 5 (in range) but no teammate
selected, every required criterion has an answer yet
`validatePeerReviewInput` still fails, so validation does not succeed
whenever every required criterion has an answer. -/
theorem c1_counterexample :
    teamworkCriterion.required = true ∧
    (fsAnsweredNoTeammate.checked teamworkCriterion.id).isSome = true ∧
    (validatePeerReviewInput [teamworkCriterion]
        fsAnsweredNoTeammate).isValid = false :=
  ⟨rfl, rfl, rfl⟩

/-- C1 (amended): each required criterion without a checked answer
contributes a `missing_rating` error naming it and makes validation fail;
and validation succeeds when every required criterion has an answer,
provided additionally a teammate is selected and every checked answer lies
within its criterion effective scale bounds. -/
theorem c1_required_validation (criteria : List Criterion) (fs : FormState) :
    (∀ c ∈ criteria, c.required = true → fs.checked c.id = none →
        VError.missing_rating c.id c.title ∈
            (validatePeerReviewInput criteria fs).errors ∧
          (validatePeerReviewInput criteria fs).isValid = false) ∧
    (fs.revieweeId.isSome = true →
      (∀ c ∈ criteria, c.required = true → (fs.checked c.id).isSome = true) →
      (∀ c ∈ criteria, ∀ r : Int, fs.checked c.id = some r →
          scaleMinOf c ≤ r ∧ r ≤ scaleMaxOf c) →
      (validatePeerReviewInput criteria fs).isValid = true) := by
  constructor
  · intro c hc hreq hnone
    have hmem : VError.missing_rating c.id c.title ∈
        (validatePeerReviewInput criteria fs).errors := by
      refine mem_errors_of_mem_validateCriterion hc ?_
      rw [validateCriterion_missing hreq hnone]
      exact List.mem_singleton.mpr rfl
    exact ⟨hmem, isValid_false_of_mem_errors hmem⟩
  · intro hsel hreq hrange
    rw [isValid_validatePeerReviewInput, errors_validatePeerReviewInput]
    have h1 : (if fs.revieweeId.isNone then [VError.teammate] else []) =
        ([] : List VError) := by
      rw [if_neg]
      simp [Option.isNone_iff_eq_none]
      rcases h : fs.revieweeId with _ | n
      · rw [h] at hsel; cases hsel
      · exact fun h' => Option.noConfusion h'
    have h2 : criteria.flatMap (validateCriterion fs) = [] := by
      rw [List.flatMap_eq_nil_iff]
      intro c hc
      rcases h : fs.checked c.id with _ | r
      · rcases hr : c.required with _ | _
        · simp [validateCriterion, h, hr]
        · have := hreq c hc hr
          rw [h] at this; cases this
      · rcases hrange c hc r h with ⟨hlo, hhi⟩
        exact validateCriterion_inRange h hlo hhi
    rw [h1, h2]
    rfl

/-- Witness for the amended C1: for the Teamwork criterion (required,
scale 1-5) with teammate 7 selected, leaving it unanswered fails validation
with a `missing_rating` error naming it, and answering it with rating 5
passes validation. -/
theorem c1_required_validation_witness :
    (VError.missing_rating 1 "Teamwork" ∈
        (validatePeerReviewInput [teamworkCriterion] fsUnanswered).errors ∧
      (validatePeerReviewInput [teamworkCriterion] fsUnanswered).isValid =
        false) ∧
    (validatePeerReviewInput [teamworkCriterion] fsAnswered).isValid = true := by
  constructor
  · exact (c1_required_validation [teamworkCriterion] fsUnanswered).1
      teamworkCriterion (List.mem_singleton.mpr rfl) rfl rfl
  · refine (c1_required_validation [teamworkCriterion] fsAnswered).2 rfl ?_ ?_
    · intro c hc _
      have hc' := List.mem_singleton.mp hc
      subst hc'
      rfl
    · intro c hc r hr
      have hc' := List.mem_singleton.mp hc
      subst hc'
      rw [show fsAnswered.checked teamworkCriterion.id = some 5 from rfl] at hr
      cases hr
      constructor <;> decide

/-! ## C2: scale-range validation -/

/-- C2 counterexample: for a criterion whose scale is present with
`min = 0`, `max = 5`, the checked rating 0 lies within `[scale.min,
scale.max]`, yet validation flags it `out_of_range` with bounds 1 and 5:
the JavaScript `|| 1` default also replaces a 0 bound, so the checked
interval is not `[scale.min, scale.max]` for falsy bounds. -/
theorem c2_counterexample :
    zeroMinCriterion.scale = some { min := some 0, max := some 5 } ∧
    fsZeroRating.checked zeroMinCriterion.id = some 0 ∧
    ((0 : Int) ≥ 0 ∧ (0 : Int) ≤ 5) ∧
    VError.out_of_range 2 "Quality" 1 5 ∈
      (validatePeerReviewInput [zeroMinCriterion] fsZeroRating).errors ∧
    (validatePeerReviewInput [zeroMinCriterion] fsZeroRating).isValid =
      false := by
  refine ⟨rfl, rfl, ⟨by decide, by decide⟩, ?_, rfl⟩
  have h : validateCriterion fsZeroRating zeroMinCriterion =
      [VError.out_of_range 2 "Quality" 1 5] := by
    refine validateCriterion_outOfRange rfl ?_
    left
    decide
  exact mem_errors_of_mem_validateCriterion (List.mem_singleton.mpr rfl)
    (h ▸ List.mem_singleton.mpr rfl)

/-- C2 (amended): validation checks every checked rating against the
effective bounds `scale?.min || 1` and `scale?.max || 5` (so an absent
scale defaults to 1 and 5, and a 0 bound also falls back to the default);
a rating outside the effective bounds yields an `out_of_range` error naming
the criterion and the effective bounds and makes validation fail, while a
rating within them yields no error for that criterion. -/
theorem c2_range_validation (criteria : List Criterion) (fs : FormState)
    (c : Criterion) (r : Int) :
    (c.scale = none → scaleMinOf c = 1 ∧ scaleMaxOf c = 5) ∧
    (c ∈ criteria → fs.checked c.id = some r →
      ((r < scaleMinOf c ∨ r > scaleMaxOf c) →
          VError.out_of_range c.id c.title (scaleMinOf c) (scaleMaxOf c) ∈
              (validatePeerReviewInput criteria fs).errors ∧
            (validatePeerReviewInput criteria fs).isValid = false) ∧
      (scaleMinOf c ≤ r ∧ r ≤ scaleMaxOf c →
          validateCriterion fs c = [])) := by
  constructor
  · intro hsc
    simp [scaleMinOf, scaleMaxOf, hsc, jsOrInt]
  · intro hc hr
    constructor
    · intro hout
      have hmem : VError.out_of_range c.id c.title (scaleMinOf c)
          (scaleMaxOf c) ∈ (validatePeerReviewInput criteria fs).errors := by
        refine mem_errors_of_mem_validateCriterion hc ?_
        rw [validateCriterion_outOfRange hr hout]
        exact List.mem_singleton.mpr rfl
      exact ⟨hmem, isValid_false_of_mem_errors hmem⟩
    · intro ⟨hlo, hhi⟩
      exact validateCriterion_inRange hr hlo hhi

/-- Witness for C2: rating 6 checked against the Teamwork criterion
(scale max 5) yields the `out_of_range` error naming Teamwork and the
bounds 1 and 5, and validation fails; rating 5 yields no error for it. -/
theorem c2_range_validation_witness :
    (VError.out_of_range 1 "Teamwork" 1 5 ∈
        (validatePeerReviewInput [teamworkCriterion] fsRating6).errors ∧
      (validatePeerReviewInput [teamworkCriterion] fsRating6).isValid =
        false) ∧
    validateCriterion fsAnswered teamworkCriterion = [] := by
  constructor
  · exact ((c2_range_validation [teamworkCriterion] fsRating6
        teamworkCriterion 6).2 (List.mem_singleton.mpr rfl) rfl).1
      (Or.inr (by decide))
  · exact ((c2_range_validation [teamworkCriterion] fsAnswered
        teamworkCriterion 5).2 (List.mem_singleton.mpr rfl) rfl).2
      ⟨by decide, by decide⟩

/-! ## C9: rendered rating inputs match validation -/

/-- C9: the rating inputs rendered for a criterion have values exactly the
integers from the effective lower bound to the effective upper bound (the
same defaults as validation), and on any form state whose checked ratings
all come from rendered inputs, validation emits no `out_of_range` error. -/
theorem c9_rendered_values_in_range (c : Criterion) (v : Int)
    (criteria : List Criterion) (fs : FormState) :
    (v ∈ renderedValues c ↔ scaleMinOf c ≤ v ∧ v ≤ scaleMaxOf c) ∧
    ((∀ c' ∈ criteria, ∀ r : Int, fs.checked c'.id = some r →
        r ∈ renderedValues c') →
      ∀ e ∈ (validatePeerReviewInput criteria fs).errors,
        e.isOutOfRange = false) := by
  constructor
  · exact mem_renderedValues
  · intro hrend e he
    rw [errors_validatePeerReviewInput] at he
    rcases List.mem_append.mp he with he | he
    · rcases h : fs.revieweeId.isNone with _ | _
      · rw [h] at he; cases he
      · rw [h] at he
        have he' := List.mem_singleton.mp he
        subst he'
        rfl
    · rcases List.mem_flatMap.mp he with ⟨c', hc', he'⟩
      rcases h : fs.checked c'.id with _ | r
      · rw [validateCriterion] at he'
        rw [h] at he'
        rcases hreq : c'.required with _ | _
        · rw [hreq] at he'
          simp at he'
        · rw [hreq] at he'
          simp at he'
          subst he'
          rfl
      · rcases mem_renderedValues.mp (hrend c' hc' r h) with ⟨hlo, hhi⟩
        rw [validateCriterion_inRange h hlo hhi] at he'
        cases he'

/-- Witness for C9: 3 is among the rendered values of the Teamwork
criterion, and the error the unanswered form state produces (whose checked
ratings, vacuously, all come from rendered inputs) is not `out_of_range`. -/
theorem c9_rendered_values_in_range_witness :
    (3 : Int) ∈ renderedValues teamworkCriterion ∧
    (VError.missing_rating 1 "Teamwork").isOutOfRange = false := by
  constructor
  · exact (c9_rendered_values_in_range teamworkCriterion 3 [teamworkCriterion]
      fsUnanswered).1.mpr ⟨by decide, by decide⟩
  · refine (c9_rendered_values_in_range teamworkCriterion 3 [teamworkCriterion]
      fsUnanswered).2 ?_ (VError.missing_rating 1 "Teamwork") ?_
    · intro c' hc' r hr
      have hc'' := List.mem_singleton.mp hc'
      subst hc''
      rw [show fsUnanswered.checked teamworkCriterion.id = none from rfl] at hr
      cases hr
    · rw [show (validatePeerReviewInput [teamworkCriterion]
          fsUnanswered).errors = [VError.missing_rating 1 "Teamwork"] from rfl]
      exact List.mem_singleton.mpr rfl

/-! ## C3: upsert of submitted reviews -/

theorem any_eq_false_of_not_any {s : SubmittedStore} {k : Nat}
    (h : ¬ s.any (fun p => p.1 = k) = true) :
    s.any (fun p => p.1 = k) = false := by
  rcases hb : s.any (fun p => p.1 = k) with _ | _
  · rfl
  · exact absurd hb h

theorem find?_map_replace (s : SubmittedStore) (k : Nat) (v : ReviewData)
    (h : s.any (fun p => p.1 = k) = true) :
    (s.map (fun p => if p.1 = k then (k, v) else p)).find?
        (fun p => p.1 = k) = some (k, v) := by
  induction s with
  | nil => cases h
  | cons hd tl ih =>
    by_cases hk : hd.1 = k
    · simp [hk]
    · rw [List.map_cons, if_neg hk,
        List.find?_cons_of_neg _ (by simpa using hk)]
      refine ih ?_
      simp only [List.any_cons] at h
      rw [Bool.or_eq_true] at h
      rcases h with h | h
      · simp [hk] at h
      · exact h

theorem getSubmittedReview_store (s : SubmittedStore) (k : Nat)
    (v : ReviewData) :
    getSubmittedReview (storeSubmittedReview s k v) k = some v := by
  unfold getSubmittedReview storeSubmittedReview
  by_cases h : s.any (fun p => p.1 = k) = true
  · rw [if_pos h, find?_map_replace s k v h]
    rfl
  · rw [if_neg h, List.find?_append]
    have hs : s.find? (fun p => p.1 = k) = none := by
      rw [List.find?_eq_none]
      intro a ha
      have := List.any_eq_false.mp (any_eq_false_of_not_any h) a ha
      simpa using this
    rw [hs]
    simp

theorem mem_store_self (s : SubmittedStore) (k : Nat) (v : ReviewData) :
    (storeSubmittedReview s k v).any (fun p => p.1 = k) = true := by
  have h := getSubmittedReview_store s k v
  unfold getSubmittedReview at h
  rcases hf : (storeSubmittedReview s k v).find? (fun p => p.1 = k)
      with _ | q
  · rw [hf] at h; cases h
  · have hq := List.find?_some hf
    rw [List.any_eq_true]
    exact ⟨q, List.mem_of_find?_eq_some hf, hq⟩

theorem keys_store_of_any (s : SubmittedStore) (k : Nat) (v : ReviewData)
    (h : s.any (fun p => p.1 = k) = true) :
    (storeSubmittedReview s k v).map Prod.fst = s.map Prod.fst := by
  unfold storeSubmittedReview
  rw [if_pos h, List.map_map]
  refine List.map_congr_left ?_
  intro a _
  by_cases hk : a.1 = k
  · simp [hk]
  · simp [hk]

theorem keys_store_nodup (s : SubmittedStore) (k : Nat) (v : ReviewData)
    (hnd : (s.map Prod.fst).Nodup) :
    ((storeSubmittedReview s k v).map Prod.fst).Nodup := by
  by_cases h : s.any (fun p => p.1 = k) = true
  · rw [keys_store_of_any s k v h]
    exact hnd
  · unfold storeSubmittedReview
    rw [if_neg h, List.map_append]
    simp only [List.map_cons, List.map_nil]
    rw [List.nodup_append]
    refine ⟨hnd, List.nodup_singleton k, ?_⟩
    intro a ha
    rcases List.mem_map.mp ha with ⟨q, hq, rfl⟩
    have := List.any_eq_false.mp (any_eq_false_of_not_any h) q hq
    simpa using this

theorem countP_key_of_nodup (s : SubmittedStore) (k : Nat)
    (hnd : (s.map Prod.fst).Nodup)
    (h : s.any (fun p => p.1 = k) = true) :
    s.countP (fun p => p.1 = k) = 1 := by
  induction s with
  | nil => cases h
  | cons hd tl ih =>
    rw [List.map_cons, List.nodup_cons] at hnd
    by_cases hk : hd.1 = k
    · have htl : tl.countP (fun p => p.1 = k) = 0 := by
        rw [List.countP_eq_zero]
        intro a ha hpa
        have ha1 : a.1 = k := by simpa using hpa
        exact hnd.1 (by
          rw [hk, ← ha1]
          exact List.mem_map.mpr ⟨a, ha, rfl⟩)
      rw [List.countP_cons_of_pos _ _ (by simpa using hk), htl]
    · rw [List.countP_cons_of_neg _ _ (by simpa using hk)]
      refine ih hnd.2 ?_
      simp only [List.any_cons] at h
      rw [Bool.or_eq_true] at h
      rcases h with h | h
      · simp [hk] at h
      · exact h

theorem countP_store_of_any (s : SubmittedStore) (k : Nat) (v : ReviewData)
    (h : s.any (fun p => p.1 = k) = true) :
    (storeSubmittedReview s k v).countP (fun p => p.1 = k) =
      s.countP (fun p => p.1 = k) := by
  unfold storeSubmittedReview
  rw [if_pos h, List.countP_map]
  refine List.countP_congr ?_
  intro a _
  by_cases hk : a.1 = k
  · simp [hk]
  · simp [hk]

/-- C3: storing a review twice for the same teammate (the reviewer is fixed
by the per-user `localStorage` key) leaves exactly one entry for that
teammate, and looking it up returns the second review record, hence its
answers, comment and timestamp; no duplicate entry is created. -/
theorem c3_upsert_last_write_wins (s : SubmittedStore) (tid : Nat)
    (rd1 rd2 : ReviewData) (hnd : (s.map Prod.fst).Nodup) :
    ((storeSubmittedReview (storeSubmittedReview s tid rd1) tid rd2).filter
        (fun p => p.1 = tid)).length = 1 ∧
    getSubmittedReview
        (storeSubmittedReview (storeSubmittedReview s tid rd1) tid rd2) tid =
      some rd2 := by
  have hany1 := mem_store_self s tid rd1
  have hnd1 := keys_store_nodup s tid rd1 hnd
  constructor
  · rw [← List.countP_eq_length_filter,
      countP_store_of_any _ tid rd2 hany1,
      countP_key_of_nodup _ tid hnd1 hany1]
  · exact getSubmittedReview_store _ tid rd2

/-- Two distinct concrete review records used by the C3 witness. -/
def sampleReview1 : ReviewData :=
  { teammate_id := 7, answers := [AnswerOut.mk 1 4], comment := "ok",
    submitted_at := "2025-01-01T00:00:00Z" }

/-- Second concrete review record used by the C3 witness. -/
def sampleReview2 : ReviewData :=
  { teammate_id := 7, answers := [AnswerOut.mk 1 5], comment := "better",
    submitted_at := "2025-01-02T00:00:00Z" }

/-- Witness for C3: starting from the empty store, submitting for teammate 7
twice keeps exactly one entry holding the second record. -/
theorem c3_upsert_last_write_wins_witness :
    ((storeSubmittedReview (storeSubmittedReview [] 7 sampleReview1) 7
        sampleReview2).filter (fun p => p.1 = 7)).length = 1 ∧
    getSubmittedReview
        (storeSubmittedReview (storeSubmittedReview [] 7 sampleReview1) 7
          sampleReview2) 7 = some sampleReview2 :=
  c3_upsert_last_write_wins [] 7 sampleReview1 sampleReview2 List.nodup_nil

/-! ## C5 and C10: handleSubmit -/

theorem mem_collectAnswers (criteria : List Criterion) (fs : FormState)
    (a : AnswerOut) :
    a ∈ collectAnswers criteria fs ↔
      ∃ c ∈ criteria, a.criterion_id = c.id ∧
        fs.checked c.id = some a.rating := by
  unfold collectAnswers
  rw [List.mem_filterMap]
  constructor
  · rintro ⟨c, hc, hg⟩
    rcases h : fs.checked c.id with _ | r
    · rw [h] at hg; cases hg
    · rw [h] at hg
      have hg' : AnswerOut.mk c.id r = a := by simpa using hg
      cases hg'
      exact ⟨c, hc, rfl, h⟩
  · rintro ⟨c, hc, hid, hch⟩
    refine ⟨c, hc, ?_⟩
    rw [hch]
    cases a
    simp_all

theorem handleSubmitStep_posted {token : Option String}
    {criteria : List Criterion} {fs : FormState} {p : SubmitPayload}
    (h : handleSubmitStep token criteria fs = SubmitStep.posted p) :
    (validatePeerReviewInput criteria fs).isValid = true ∧
      p = buildPayload criteria fs := by
  rcases token with _ | t
  · cases h
  · unfold handleSubmitStep at h
    by_cases hv : (validatePeerReviewInput criteria fs).isValid = true
    · rw [if_pos hv] at h
      cases h
      exact ⟨hv, rfl⟩
    · rw [if_neg hv] at h
      cases h

theorem revieweeId_isSome_of_isValid {criteria : List Criterion}
    {fs : FormState}
    (h : (validatePeerReviewInput criteria fs).isValid = true) :
    fs.revieweeId.isSome = true := by
  rw [isValid_validatePeerReviewInput, errors_validatePeerReviewInput] at h
  rcases hr : fs.revieweeId with _ | n
  · rw [hr] at h
    simp at h
  · rfl

/-- C5: whenever `handleSubmit` reaches the network, the body it POSTs to
`/peer-reviews/submit` is a `reviews` array with exactly one entry, whose
`teammate_id` is the selected reviewee id and whose `answers` are exactly
the pairs of a criterion id with its checked numeric rating; and the
response statuses 401, 409 and 400/422 are dispatched to the distinct
unauthorized, conflict and validation outcome paths. -/
theorem c5_submit_payload_shape (token : Option String)
    (criteria : List Criterion) (fs : FormState) (p : SubmitPayload)
    (d : Option String) :
    (handleSubmitStep token criteria fs = SubmitStep.posted p →
      ∃ n, fs.revieweeId = some n ∧
        p.reviews = [ReviewOut.mk (n : Int) (collectAnswers criteria fs)] ∧
        (∀ a : AnswerOut, a ∈ collectAnswers criteria fs ↔
          ∃ c ∈ criteria, a.criterion_id = c.id ∧
            fs.checked c.id = some a.rating) ∧
        handleSubmitRequests token criteria fs =
          [Request.mk "POST" "/peer-reviews/submit" (token.map bearer)]) ∧
    classifySubmitResponse 401 d = SubmitOutcome.unauthorizedRedirect ∧
    classifySubmitResponse 409 d = SubmitOutcome.conflictMessage
      (d.getD "Conflict: This review may have already been submitted.") ∧
    classifySubmitResponse 400 d = SubmitOutcome.validationMessage
      (d.getD "Validation error: Please check your input.") ∧
    classifySubmitResponse 422 d = SubmitOutcome.validationMessage
      (d.getD "Validation error: Please check your input.") := by
  refine ⟨?_, rfl, rfl, rfl, rfl⟩
  intro h
  rcases handleSubmitStep_posted h with ⟨hv, rfl⟩
  have hsome := revieweeId_isSome_of_isValid hv
  rcases hr : fs.revieweeId with _ | n
  · rw [hr] at hsome; cases hsome
  · refine ⟨n, rfl, ?_, ?_, ?_⟩
    · unfold buildPayload
      rw [hr]
      rfl
    · intro a
      exact mem_collectAnswers criteria fs a
    · unfold handleSubmitRequests
      rw [h]

/-- Witness for C5: with a token, the Teamwork criterion and the answered
form state for teammate 7, `handleSubmit` posts, and the payload is one
review for teammate 7 with the single answer pairing criterion 1 with
rating 5. -/
theorem c5_submit_payload_shape_witness :
    handleSubmitStep (some "tok") [teamworkCriterion] fsAnswered =
      SubmitStep.posted (buildPayload [teamworkCriterion] fsAnswered) ∧
    (buildPayload [teamworkCriterion] fsAnswered).reviews =
      [ReviewOut.mk (7 : Int) [AnswerOut.mk 1 5]] ∧
    handleSubmitRequests (some "tok") [teamworkCriterion] fsAnswered =
      [Request.mk "POST" "/peer-reviews/submit" (some (bearer "tok"))] := by
  have h := (c5_submit_payload_shape (some "tok") [teamworkCriterion]
      fsAnswered (buildPayload [teamworkCriterion] fsAnswered) none).1 rfl
  rcases h with ⟨n, hn, hrev, _, hreq⟩
  rw [show fsAnswered.revieweeId = some 7 from rfl] at hn
  cases hn
  refine ⟨rfl, ?_, hreq⟩
  rw [hrev]
  rfl

/-- C10: `handleSubmit` POSTs only after `validatePeerReviewInput` returns
`isValid = true`.  When validation fails, no request is issued, the stored
submitted reviews are left unchanged, and (with a token present) the handler
takes the path that displays exactly the validation errors; conversely a
posted payload implies validation passed. -/
theorem c10_no_post_on_invalid (token : Option String)
    (criteria : List Criterion) (fs : FormState) (store : SubmittedStore)
    (status : Nat) (now : String) (p : SubmitPayload) :
    ((validatePeerReviewInput criteria fs).isValid = false →
      handleSubmitRequests token criteria fs = [] ∧
      handleSubmitStore token criteria fs store status now = store ∧
      (∀ t, token = some t →
        handleSubmitStep token criteria fs = SubmitStep.validationFailed
          (validatePeerReviewInput criteria fs).errors)) ∧
    (handleSubmitStep token criteria fs = SubmitStep.posted p →
      (validatePeerReviewInput criteria fs).isValid = true) := by
  constructor
  · intro hv
    have hstep : ∀ t, token = some t →
        handleSubmitStep token criteria fs = SubmitStep.validationFailed
          (validatePeerReviewInput criteria fs).errors := by
      intro t ht
      subst ht
      unfold handleSubmitStep
      rw [if_neg (by rw [hv]; exact Bool.false_ne_true)]
    rcases token with _ | t
    · exact ⟨rfl, rfl, fun t ht => Option.noConfusion ht⟩
    · have h := hstep t rfl
      refine ⟨?_, ?_, hstep⟩
      · unfold handleSubmitRequests
        rw [h]
      · unfold handleSubmitStore
        rw [h]
  · intro h
    exact (handleSubmitStep_posted h).1

/-- Witness for C10: with a token, the Teamwork criterion and the
unanswered form state, validation fails, no request is issued, the store is
unchanged and the handler carries the validation errors. -/
theorem c10_no_post_on_invalid_witness :
    (validatePeerReviewInput [teamworkCriterion] fsUnanswered).isValid =
      false ∧
    handleSubmitRequests (some "tok") [teamworkCriterion] fsUnanswered = [] ∧
    handleSubmitStore (some "tok") [teamworkCriterion] fsUnanswered
      [(3, sampleReview1)] 200 "now" = [(3, sampleReview1)] ∧
    handleSubmitStep (some "tok") [teamworkCriterion] fsUnanswered =
      SubmitStep.validationFailed
        (validatePeerReviewInput [teamworkCriterion] fsUnanswered).errors := by
  have h := (c10_no_post_on_invalid (some "tok") [teamworkCriterion]
      fsUnanswered [(3, sampleReview1)] 200 "now"
      (buildPayload [teamworkCriterion] fsUnanswered)).1 rfl
  exact ⟨rfl, h.1, h.2.1, h.2.2 "tok" rfl⟩

/-! ## C6: no self-review in the filtered teammate list -/

theorem jsToLower_ne_empty {u : String} (h : u ≠ "") : jsToLower u ≠ "" := by
  intro hcon
  have hdata : u.data.map Char.toLower = [] := congrArg String.data hcon
  rw [List.map_eq_nil_iff] at hdata
  apply h
  cases u
  simp_all

/-- C6: the filtered teammate list contains no member carrying a (nonempty)
username equal, case-insensitively, to the stored username of the logged-in
user: the caller lowercases the stored username and the filter drops every
member whose lowercased username matches it. -/
theorem c6_no_self_review (members : List Member) (stored : Option String)
    (m : Member) (u : String)
    (hm : m ∈ filteredMembers members (jsToLower (jsOrString stored "")))
    (hu : m.username = some u) (hne : u ≠ "") :
    jsToLower u ≠ jsToLower (jsOrString stored "") := by
  rcases List.mem_filter.mp hm with ⟨_, hp⟩
  have hme : jsOrString m.username "" = u := by
    rw [hu]
    simp [jsOrString, hne]
  rw [hme] at hp
  rw [if_neg (jsToLower_ne_empty hne)] at hp
  exact bne_iff_ne.mp hp

/-- The member used by the C6 witness. -/
def bobMember : Member :=
  { id := 2, username := some "Bob", name := none, email := none }

/-- Witness for C6: the member "Bob" survives the filter against the stored
username "Alice", and his lowercased username indeed differs from the
lowercased stored one. -/
theorem c6_no_self_review_witness :
    bobMember ∈ filteredMembers [bobMember]
      (jsToLower (jsOrString (some "Alice") "")) ∧
    jsToLower "Bob" ≠ jsToLower (jsOrString (some "Alice") "") := by
  have hm : bobMember ∈ filteredMembers [bobMember]
      (jsToLower (jsOrString (some "Alice") "")) := by
    rw [show filteredMembers [bobMember]
        (jsToLower (jsOrString (some "Alice") "")) = [bobMember] from rfl]
    exact List.mem_singleton.mpr rfl
  exact ⟨hm, c6_no_self_review [bobMember] (some "Alice") bobMember "Bob" hm
    rfl (by decide)⟩

/-! ## C7: bearer header on every rating-form request -/

/-- C7: with no stored token, none of the rating-form handlers issues a
request (the submit handler reports not being logged in, and the page
protection of protected.js redirects any non-public page to login); with a
stored token, every request any of them issues carries
the `Authorization: Bearer` header built from that token. -/
theorem c7_bearer_auth_invariant (t : String) (tid : Nat)
    (newId : Option Nat) (resOk hasAnswers localHas : Bool)
    (criteria : List Criterion) (fs : FormState) :
    (ratingFormLoadRequests none = [] ∧
      refreshRatingFormRequests none = [] ∧
      loadReviewIntoFormRequests none tid = [] ∧
      handleTeammateChangeRequests none newId resOk hasAnswers localHas = [] ∧
      handleSubmitRequests none criteria fs = []) ∧
    (∀ r ∈ ratingFormLoadRequests (some t),
        r.authorization = some (bearer t)) ∧
    (∀ r ∈ refreshRatingFormRequests (some t),
        r.authorization = some (bearer t)) ∧
    (∀ r ∈ loadReviewIntoFormRequests (some t) tid,
        r.authorization = some (bearer t)) ∧
    (∀ r ∈ handleTeammateChangeRequests (some t) newId resOk hasAnswers
        localHas, r.authorization = some (bearer t)) ∧
    (∀ r ∈ handleSubmitRequests (some t) criteria fs,
        r.authorization = some (bearer t)) ∧
    pageProtectionRedirects false none = true := by
  refine ⟨⟨rfl, rfl, rfl, ?_, rfl⟩, ?_, ?_, ?_, ?_, ?_, rfl⟩
  · cases newId <;> rfl
  · intro r hr
    have hr' := List.mem_singleton.mp hr
    subst hr'
    rfl
  · intro r hr
    have hr' := List.mem_singleton.mp hr
    subst hr'
    rfl
  · intro r hr
    have hr' := List.mem_singleton.mp hr
    subst hr'
    rfl
  · intro r hr
    rcases newId with _ | tid'
    · cases hr
    · rcases List.mem_cons.mp hr with hr' | hr'
      · subst hr'
        rfl
      · have hload : ∀ x ∈ loadReviewIntoFormRequests (some t) tid',
            x.authorization = some (bearer t) := by
          intro x hx
          have hx' := List.mem_singleton.mp hx
          subst hx'
          rfl
        rcases resOk with _ | _
        · rcases localHas with _ | _
          · simp only [Bool.false_eq_true, if_false] at hr'
            cases hr'
          · simp only [if_true] at hr'
            exact hload r hr'
        · rcases hasAnswers with _ | _
          · rcases localHas with _ | _
            · simp only [Bool.false_eq_true, if_false, if_true] at hr'
              cases hr'
            · simp only [if_true] at hr'
              exact hload r hr'
          · simp only [if_true] at hr'
            exact hload r hr'
  · intro r hr
    unfold handleSubmitRequests at hr
    rcases h : handleSubmitStep (some t) criteria fs with _ | e | pl
    · rw [h] at hr; cases hr
    · rw [h] at hr; cases hr
    · rw [h] at hr
      have hr' := List.mem_singleton.mp hr
      subst hr'
      rfl

/-- Witness for C7: with no token the form-load trace is empty, and with
token "tok" the single form-load request carries the bearer header. -/
theorem c7_bearer_auth_invariant_witness :
    ratingFormLoadRequests none = [] ∧
    (Request.mk "GET" "/peer-reviews/form"
        (some (bearer "tok"))).authorization = some (bearer "tok") := by
  have h := c7_bearer_auth_invariant "tok" 7 (some 7) true true true
      [teamworkCriterion] fsAnswered
  refine ⟨h.1.1, ?_⟩
  refine h.2.1 (Request.mk "GET" "/peer-reviews/form" (some (bearer "tok"))) ?_
  rw [show ratingFormLoadRequests (some "tok") =
      [Request.mk "GET" "/peer-reviews/form" (some (bearer "tok"))] from rfl]
  exact List.mem_singleton.mpr rfl

/-! ## C8: signup guard and 409 handling -/

/-- C8: when any signup field is empty (after the handler trims email and
username) or the two passwords differ, the handler issues no request to
`/auth/signup` and only sets an error message; and a 409 response is
reported as the username or email already existing. -/
theorem c8_signup_guard (f : SignupForm) (signupUrl : String)
    (d : Option String) :
    ((f.email.trim = "" ∨ f.username.trim = "" ∨ f.password = "" ∨
        f.confirmPassword = "" ∨ f.role = "" ∨
        f.password ≠ f.confirmPassword) →
      signupRequests f = [] ∧
      ∃ m, signupSubmitStep f = SignupStep.message m) ∧
    classifySignupResponse signupUrl 409 d =
      SignupOutcome.conflictMessage
        (d.getD "Username or email already exists.") := by
  constructor
  · intro h
    have hstep : ∃ m, signupSubmitStep f = SignupStep.message m := by
      unfold signupSubmitStep
      by_cases he : f.email.trim = "" ∨ f.username.trim = "" ∨
          f.password = "" ∨ f.confirmPassword = "" ∨ f.role = ""
      · exact ⟨"Please fill in all fields.", by rw [if_pos he]⟩
      · have hne : f.password ≠ f.confirmPassword := by
          rcases h with h | h | h | h | h | h
          · exact absurd (Or.inl h) he
          · exact absurd (Or.inr (Or.inl h)) he
          · exact absurd (Or.inr (Or.inr (Or.inl h))) he
          · exact absurd (Or.inr (Or.inr (Or.inr (Or.inl h)))) he
          · exact absurd (Or.inr (Or.inr (Or.inr (Or.inr h)))) he
          · exact h
        exact ⟨"Passwords do not match.", by rw [if_neg he, if_pos hne]⟩
    rcases hstep with ⟨m, hm⟩
    refine ⟨?_, ⟨m, hm⟩⟩
    unfold signupRequests
    rw [hm]
  · rfl

/-- The incomplete signup form used by the C8 witness: empty password. -/
def badSignupForm : SignupForm :=
  { email := "a@b.c", username := "bob", password := "",
    confirmPassword := "x", role := "student" }

/-- Witness for C8: the form with an empty password produces no request and
only the fill-in-all-fields message; a 409 with no detail is reported with
the exists-already default. -/
theorem c8_signup_guard_witness :
    (signupRequests badSignupForm = [] ∧
      ∃ m, signupSubmitStep badSignupForm = SignupStep.message m) ∧
    classifySignupResponse "/auth/signup" 409 none =
      SignupOutcome.conflictMessage "Username or email already exists." := by
  have h := c8_signup_guard badSignupForm "/auth/signup" none
  exact ⟨h.1 (Or.inr (Or.inr (Or.inl rfl))), h.2⟩

/-- Witness for C4: the forward edge draft-to-started succeeds, and the
skipping transition draft-to-published fails with `InvalidTransition`. -/
theorem c4_state_machine_witness :
    setState ReviewState.draft ReviewState.started =
      Except.ok ReviewState.started ∧
    setState ReviewState.draft ReviewState.published =
      Except.error GateError.invalidTransition := by
  constructor
  · exact (c4_state_machine.2.1 ReviewState.draft ReviewState.started).mpr
      (Or.inl ⟨rfl, rfl⟩)
  · exact c4_state_machine.2.2.1 ReviewState.draft ReviewState.published
      (by intro h; cases h)
